import Mathlib

/-!
Verification development for the chess engine core (bitboard move generator,
legal-move enumeration, state transition, terminal test, utility, history).

Bitboards are shallowly embedded as `Nat` with explicit 64-bit truncation
(`&&& mask64`) where the C++ `uint64_t` arithmetic wraps.  Encoded actions
(32-bit packed words) are embedded as `Nat` with the exact bit layout of
`action.cpp`.  Every definition follows the corresponding C++ source
function; source names are kept in lowerCamelCase.
-/

namespace ChessSpec

/-- The 64-bit all-ones mask; `uint64_t` arithmetic is modelled as `Nat`
truncated with this mask. -/
def mask64 : Nat := 0xffffffffffffffff

/-- C++ `uint64_t` left shift (wraps modulo 2^64). -/
def shl (b k : Nat) : Nat := (b <<< k) &&& mask64

/-- C++ `uint64_t` right shift. -/
def shr (b k : Nat) : Nat := b >>> k

/-- C++ `operator~` on `uint64_t` (complement within 64 bits). -/
def bnot (b : Nat) : Nat := b ^^^ mask64

/-- Bitboard::ToIndices loop body: walks the bits from the least significant,
collecting indices of set bits (the loop in bitboard.cpp lines 81-87).  The
loop is embedded with an explicit fuel for structural recursion; the board
value itself strictly dominates the number of iterations, so the fuel is
never exhausted. -/
def toIndicesGo : Nat → Nat → Nat → List Nat
  | 0, _, _ => []
  | fuel + 1, board, index =>
    if board = 0 then []
    else (if board % 2 = 1 then [index] else []) ++
      toIndicesGo fuel (board / 2) (index + 1)

/-- Bitboard::ToIndices: the ascending list of set-bit positions. -/
def toIndices (board : Nat) : List Nat := toIndicesGo board board 0

/-- Bitboard::Separated loop body: walks the bits, collecting a single-bit
board for each set bit (the loop in bitboard.cpp lines 103-109), fuel-indexed
as in `toIndicesGo`. -/
def separatedGo : Nat → Nat → Nat → List Nat
  | 0, _, _ => []
  | fuel + 1, tempBoard, board =>
    if tempBoard = 0 then []
    else (if tempBoard % 2 = 1 then [board] else []) ++
      separatedGo fuel (tempBoard / 2) (board * 2)

/-- Bitboard::Separated: the list of single-bit boards; the power-of-two fast
path (`board & (board - 1) == 0`) returns the board itself as a singleton,
including for the empty board. -/
def separated (board : Nat) : List Nat :=
  if board &&& (board - 1) = 0 then [board]
  else separatedGo board board 1

/-- Bitboard::NumberOfBits loop body: popcount by repeatedly clearing the
least significant set bit, fuel-indexed as in `toIndicesGo` (clearing the
lowest set bit strictly decreases the board, so the fuel is never
exhausted). -/
def numberOfBitsGo : Nat → Nat → Nat
  | 0, _ => 0
  | fuel + 1, board =>
    if board = 0 then 0
    else numberOfBitsGo fuel (board &&& (board - 1)) + 1

/-- Bitboard::NumberOfBits. -/
def numberOfBits (board : Nat) : Nat := numberOfBitsGo board board

/-- Bitboard::FromIndex: the single-bit board for a square index. -/
def fromIndex (index : Nat) : Nat := 1 <<< index

inductive Color where
  | white
  | black
deriving DecidableEq, Repr

/-- The C++ `(color + 1) % 2` opposite-colour computation. -/
def oppositeColor : Color → Color
  | .white => .black
  | .black => .white

inductive Piece where
  | king
  | queen
  | rook
  | bishop
  | knight
  | pawn
deriving DecidableEq, Repr

/-- MoveEngine::PieceToInt (the enum values of chess-pieces.h). -/
def pieceToInt : Piece → Nat
  | .king => 0
  | .queen => 1
  | .rook => 2
  | .bishop => 3
  | .knight => 4
  | .pawn => 5

inductive Direction where
  | north
  | south
  | east
  | west
  | northeast
  | northwest
  | southeast
  | southwest
deriving DecidableEq, Repr

/-- The per-colour vector of six piece bitboards (`whites_` / `blacks_`),
indexed by piece kind. -/
structure SideBoards where
  king : Nat
  queen : Nat
  rook : Nat
  bishop : Nat
  knight : Nat
  pawn : Nat
deriving DecidableEq, Repr

def SideBoards.get (b : SideBoards) : Piece → Nat
  | .king => b.king
  | .queen => b.queen
  | .rook => b.rook
  | .bishop => b.bishop
  | .knight => b.knight
  | .pawn => b.pawn

def SideBoards.set (b : SideBoards) : Piece → Nat → SideBoards
  | .king, v => { b with king := v }
  | .queen, v => { b with queen := v }
  | .rook, v => { b with rook := v }
  | .bishop, v => { b with bishop := v }
  | .knight, v => { b with knight := v }
  | .pawn, v => { b with pawn := v }

/-- The `pieces &= new_all_enemy` loop over a per-kind vector. -/
def SideBoards.mapAll (b : SideBoards) (f : Nat → Nat) : SideBoards :=
  ⟨f b.king, f b.queen, f b.rook, f b.bishop, f b.knight, f b.pawn⟩

/-- The complete position (state.h): side to move, denormalized occupancy
unions, per-colour per-kind boards, en-passant target, castling rights. -/
structure State where
  colorAtPlay : Color
  allWhites : Nat
  allBlacks : Nat
  whites : SideBoards
  blacks : SideBoards
  enPassantSquares : Nat
  castlingSquares : Nat
deriving DecidableEq, Repr

def kAFileInverse : Nat := 0xfefefefefefefefe
def kHFileInverse : Nat := 0x7f7f7f7f7f7f7f7f
def kAbFileInverse : Nat := 0xfcfcfcfcfcfcfcfc
def kGhFileInverse : Nat := 0x3f3f3f3f3f3f3f3f

/-- MoveEngine::Moving: single step in a direction with wrap masking. -/
def moving (board : Nat) : Direction → Nat
  | .north => shl board 8
  | .south => shr board 8
  | .east => shl board 1 &&& kAFileInverse
  | .west => shr board 1 &&& kHFileInverse
  | .northeast => shl board 9 &&& kAFileInverse
  | .northwest => shl board 7 &&& kHFileInverse
  | .southeast => shr board 7 &&& kAFileInverse
  | .southwest => shr board 9 &&& kHFileInverse

/-- MoveEngine::NorthMovesWithBlockers: seven unrolled masked steps. -/
def northMovesWithBlockers (board blockerInverse : Nat) : Nat :=
  let b1 := shl board 8 &&& blockerInverse
  let b2 := shl b1 8 &&& blockerInverse
  let b3 := shl b2 8 &&& blockerInverse
  let b4 := shl b3 8 &&& blockerInverse
  let b5 := shl b4 8 &&& blockerInverse
  let b6 := shl b5 8 &&& blockerInverse
  let b7 := shl b6 8 &&& blockerInverse
  board ||| b1 ||| b2 ||| b3 ||| b4 ||| b5 ||| b6 ||| b7

/-- MoveEngine::SouthMovesWithBlockers. -/
def southMovesWithBlockers (board blockerInverse : Nat) : Nat :=
  let b1 := shr board 8 &&& blockerInverse
  let b2 := shr b1 8 &&& blockerInverse
  let b3 := shr b2 8 &&& blockerInverse
  let b4 := shr b3 8 &&& blockerInverse
  let b5 := shr b4 8 &&& blockerInverse
  let b6 := shr b5 8 &&& blockerInverse
  let b7 := shr b6 8 &&& blockerInverse
  board ||| b1 ||| b2 ||| b3 ||| b4 ||| b5 ||| b6 ||| b7

/-- MoveEngine::EastMovesWithBlockers: six steps with the file mask, the
seventh with the plain blocker inverse. -/
def eastMovesWithBlockers (board blockerInverse : Nat) : Nat :=
  let bfi := blockerInverse &&& kAFileInverse
  let b1 := shl board 1 &&& bfi
  let b2 := shl b1 1 &&& bfi
  let b3 := shl b2 1 &&& bfi
  let b4 := shl b3 1 &&& bfi
  let b5 := shl b4 1 &&& bfi
  let b6 := shl b5 1 &&& bfi
  let b7 := shl b6 1 &&& blockerInverse
  board ||| b1 ||| b2 ||| b3 ||| b4 ||| b5 ||| b6 ||| b7

/-- MoveEngine::WestMovesWithBlockers. -/
def westMovesWithBlockers (board blockerInverse : Nat) : Nat :=
  let bfi := blockerInverse &&& kHFileInverse
  let b1 := shr board 1 &&& bfi
  let b2 := shr b1 1 &&& bfi
  let b3 := shr b2 1 &&& bfi
  let b4 := shr b3 1 &&& bfi
  let b5 := shr b4 1 &&& bfi
  let b6 := shr b5 1 &&& bfi
  let b7 := shr b6 1 &&& blockerInverse
  board ||| b1 ||| b2 ||| b3 ||| b4 ||| b5 ||| b6 ||| b7

/-- MoveEngine::NortheastMovesWithBlockers. -/
def northeastMovesWithBlockers (board blockerInverse : Nat) : Nat :=
  let bfi := blockerInverse &&& kAFileInverse
  let b1 := shl board 9 &&& bfi
  let b2 := shl b1 9 &&& bfi
  let b3 := shl b2 9 &&& bfi
  let b4 := shl b3 9 &&& bfi
  let b5 := shl b4 9 &&& bfi
  let b6 := shl b5 9 &&& bfi
  let b7 := shl b6 9 &&& blockerInverse
  board ||| b1 ||| b2 ||| b3 ||| b4 ||| b5 ||| b6 ||| b7

/-- MoveEngine::NorthwestMovesWithBlockers. -/
def northwestMovesWithBlockers (board blockerInverse : Nat) : Nat :=
  let bfi := blockerInverse &&& kHFileInverse
  let b1 := shl board 7 &&& bfi
  let b2 := shl b1 7 &&& bfi
  let b3 := shl b2 7 &&& bfi
  let b4 := shl b3 7 &&& bfi
  let b5 := shl b4 7 &&& bfi
  let b6 := shl b5 7 &&& bfi
  let b7 := shl b6 7 &&& blockerInverse
  board ||| b1 ||| b2 ||| b3 ||| b4 ||| b5 ||| b6 ||| b7

/-- MoveEngine::SoutheastMovesWithBlockers. -/
def southeastMovesWithBlockers (board blockerInverse : Nat) : Nat :=
  let bfi := blockerInverse &&& kAFileInverse
  let b1 := shr board 7 &&& bfi
  let b2 := shr b1 7 &&& bfi
  let b3 := shr b2 7 &&& bfi
  let b4 := shr b3 7 &&& bfi
  let b5 := shr b4 7 &&& bfi
  let b6 := shr b5 7 &&& bfi
  let b7 := shr b6 7 &&& blockerInverse
  board ||| b1 ||| b2 ||| b3 ||| b4 ||| b5 ||| b6 ||| b7

/-- MoveEngine::SouthwestMovesWithBlockers. -/
def southwestMovesWithBlockers (board blockerInverse : Nat) : Nat :=
  let bfi := blockerInverse &&& kHFileInverse
  let b1 := shr board 9 &&& bfi
  let b2 := shr b1 9 &&& bfi
  let b3 := shr b2 9 &&& bfi
  let b4 := shr b3 9 &&& bfi
  let b5 := shr b4 9 &&& bfi
  let b6 := shr b5 9 &&& bfi
  let b7 := shr b6 9 &&& blockerInverse
  board ||| b1 ||| b2 ||| b3 ||| b4 ||| b5 ||| b6 ||| b7

/-- MoveEngine::PawnNorthMovesWithBlockers. -/
def pawnNorthMovesWithBlockers (board blockerInverse : Nat) : Nat :=
  board ||| (shl board 8 &&& blockerInverse)

/-- MoveEngine::PawnNorthNorthMovesWithBlockers. -/
def pawnNorthNorthMovesWithBlockers (board blockerInverse : Nat) : Nat :=
  let b1 := shl board 8 &&& blockerInverse
  board ||| b1 ||| (shl b1 8 &&& blockerInverse)

/-- MoveEngine::PawnSouthMovesWithBlockers. -/
def pawnSouthMovesWithBlockers (board blockerInverse : Nat) : Nat :=
  board ||| (shr board 8 &&& blockerInverse)

/-- MoveEngine::PawnSouthSouthMovesWithBlockers. -/
def pawnSouthSouthMovesWithBlockers (board blockerInverse : Nat) : Nat :=
  let b1 := shr board 8 &&& blockerInverse
  board ||| b1 ||| (shr b1 8 &&& blockerInverse)

/-- MoveEngine::KingMoves. -/
def kingMoves (king self : Nat) : Nat :=
  (moving king .north ||| moving king .south ||| moving king .east |||
   moving king .west ||| moving king .northeast ||| moving king .northwest |||
   moving king .southeast ||| moving king .southwest) &&& bnot self

/-- MoveEngine::KnightMoves. -/
def knightMoves (knight self : Nat) : Nat :=
  ((shl knight 17 &&& kAFileInverse) |||
   (shr knight 15 &&& kAFileInverse) |||
   (shl knight 15 &&& kHFileInverse) |||
   (shr knight 17 &&& kHFileInverse) |||
   (shl knight 10 &&& kAbFileInverse) |||
   (shr knight 6 &&& kAbFileInverse) |||
   (shr knight 10 &&& kGhFileInverse) |||
   (shl knight 6 &&& kGhFileInverse)) &&& bnot self

/-- MoveEngine::RookMoves: rays with the inverted-blocker masks derived from
the (inverted) self and enemy occupancies. -/
def rookMoves (rook self enemy : Nat) : Nat :=
  let selfI := bnot self
  let enemyI := bnot enemy
  (northMovesWithBlockers rook (selfI &&& moving enemyI .north) |||
   southMovesWithBlockers rook (selfI &&& moving enemyI .south) |||
   westMovesWithBlockers rook (selfI &&& moving enemyI .west) |||
   eastMovesWithBlockers rook (selfI &&& moving enemyI .east)) ^^^ rook

/-- MoveEngine::BishopMoves. -/
def bishopMoves (bishop self enemy : Nat) : Nat :=
  let selfI := bnot self
  let enemyI := bnot enemy
  (northeastMovesWithBlockers bishop (selfI &&& moving enemyI .northeast) |||
   northwestMovesWithBlockers bishop (selfI &&& moving enemyI .northwest) |||
   southeastMovesWithBlockers bishop (selfI &&& moving enemyI .southeast) |||
   southwestMovesWithBlockers bishop (selfI &&& moving enemyI .southwest)) ^^^ bishop

/-- MoveEngine::QueenMoves. -/
def queenMoves (queen self enemy : Nat) : Nat :=
  let selfI := bnot self
  let enemyI := bnot enemy
  (northMovesWithBlockers queen (selfI &&& moving enemyI .north) |||
   southMovesWithBlockers queen (selfI &&& moving enemyI .south) |||
   westMovesWithBlockers queen (selfI &&& moving enemyI .west) |||
   eastMovesWithBlockers queen (selfI &&& moving enemyI .east) |||
   northeastMovesWithBlockers queen (selfI &&& moving enemyI .northeast) |||
   northwestMovesWithBlockers queen (selfI &&& moving enemyI .northwest) |||
   southeastMovesWithBlockers queen (selfI &&& moving enemyI .southeast) |||
   southwestMovesWithBlockers queen (selfI &&& moving enemyI .southwest)) ^^^ queen

def kSecondRank : Nat := 0xff00
def kSeventhRank : Nat := 0xff000000000000

/-- MoveEngine::PawnMoves. -/
def pawnMoves (pawn self enemy : Nat) (selfColor : Color) : Nat :=
  let enemyOriginal := enemy
  let selfI := bnot self
  let enemyI := bnot enemy
  if selfColor = .white then
    (pawnNorthMovesWithBlockers pawn (selfI &&& enemyI) |||
     pawnNorthNorthMovesWithBlockers (pawn &&& kSecondRank) (selfI &&& enemyI) |||
     (moving pawn .northeast &&& enemyOriginal) |||
     (moving pawn .northwest &&& enemyOriginal)) ^^^ pawn
  else
    (pawnSouthMovesWithBlockers pawn (selfI &&& enemyI) |||
     pawnSouthSouthMovesWithBlockers (pawn &&& kSeventhRank) (selfI &&& enemyI) |||
     (moving pawn .southeast &&& enemyOriginal) |||
     (moving pawn .southwest &&& enemyOriginal)) ^^^ pawn

/-- MoveEngine::CastlingMoves (note the source masks 0x01 / 0x08 and the
rank-one obstacle masks are used for both colours). -/
def castlingMoves (castlingSquares allWhite allBlacks : Nat) : Nat :=
  let kLongCastling : Nat := 0x01
  let kShortCastling : Nat := 0x08
  let kLongCastlingObstacles : Nat := 0x0e
  let kShortCastlingObstacles : Nat := 0x60
  let obstacles := allBlacks ||| allWhite
  let shortCastlingFrom := castlingSquares &&& kShortCastling
  let longCastlingFrom := castlingSquares &&& kLongCastling
  let r1 : Nat :=
    if obstacles &&& kLongCastlingObstacles = 0 ∧
       longCastlingFrom &&& kLongCastling ≠ 0 then kLongCastling else 0
  if obstacles &&& kShortCastlingObstacles = 0 ∧
     shortCastlingFrom &&& kShortCastling ≠ 0 then r1 ||| kShortCastling else r1

/-- MoveEngine::EnpassantMoves: is an en-passant square east or west of one
of our pawns. -/
def enpassantMoves (enemyEnpassantSquares selfPawns : Nat) : Nat :=
  (moving enemyEnpassantSquares .east &&& selfPawns) |||
  (moving enemyEnpassantSquares .west &&& selfPawns)

/-- MoveEngine::AllStandardMovesInOneBitboard: union of the six per-kind
pseudo-legal move boards. -/
def allStandardMovesInOneBitboard (selfPieces : SideBoards) (self enemy : Nat)
    (selfColor : Color) : Nat :=
  kingMoves selfPieces.king self |||
  queenMoves selfPieces.queen self enemy |||
  rookMoves selfPieces.rook self enemy |||
  bishopMoves selfPieces.bishop self enemy |||
  knightMoves selfPieces.knight self |||
  pawnMoves selfPieces.pawn self enemy selfColor

/-- MoveEngine::AllBitboardsInOneBoard. -/
def allBitboardsInOneBoard (boards : SideBoards) : Nat :=
  boards.king ||| boards.queen ||| boards.rook ||| boards.bishop |||
  boards.knight ||| boards.pawn

/-- Action::ColorToBitboard (bit 0). -/
def colorToBits : Color → Nat
  | .white => 0x00
  | .black => 0x01

/-- The square index of a single-bit board (the common content of the
before/after lookup tables of action.cpp), fuel-indexed as in
`toIndicesGo`. -/
def bitIndexGo : Nat → Nat → Nat
  | 0, _ => 0
  | fuel + 1, board => if board ≤ 1 then 0 else bitIndexGo fuel (board / 2) + 1

/-- The square index of a single-bit board. -/
def bitIndex (board : Nat) : Nat := bitIndexGo board board

/-- Action::PieceBeforeToBitboard: the lookup table maps the single-bit board
with bit k set to the value 2k (stored in bits 1-6). -/
def pieceBeforeToBits (before : Nat) : Nat := 2 * bitIndex before

/-- Action::PieceAfterToBitboard: the lookup table maps the single-bit board
with bit k set to the value k shifted into bits 7-12. -/
def pieceAfterToBits (after : Nat) : Nat := bitIndex after <<< 7

/-- Action::PieceMovedToBitboard (bits 16-18). -/
def pieceMovedToBits : Piece → Nat
  | .king => 0x10000
  | .pawn => 0x20000
  | .bishop => 0x30000
  | .knight => 0x40000
  | .rook => 0x50000
  | .queen => 0x60000

/-- Action::PieceCapturedToBitboard (bits 23-25 and the king sentinel
bit 31). -/
def pieceCapturedToBits (wasCapture : Bool) : Piece → Nat
  | .pawn => if wasCapture then 0x800000 else 0
  | .bishop => if wasCapture then 0x1000000 else 0
  | .knight => if wasCapture then 0x1800000 else 0
  | .rook => if wasCapture then 0x2000000 else 0
  | .queen => if wasCapture then 0x2800000 else 0
  | .king => if wasCapture then 0x80000000 else 0

/-- Action::PromotionToBitboard (bits 28-30); the map has no entry for king
or pawn, and `operator[]` on a missing key yields 0. -/
def promotionToBits (wasPromotion : Bool) (promotedTo : Piece) : Nat :=
  if !wasPromotion then 0
  else match promotedTo with
    | .bishop => 0x10000000
    | .knight => 0x20000000
    | .rook => 0x30000000
    | .queen => 0x40000000
    | _ => 0

/-- Action::WasEqualPieceCaptureToBitboard (bit 27). -/
def equalCaptureBits (wasCapture : Bool) (piece capturePiece : Piece) : Nat :=
  if wasCapture && piece == capturePiece then 0x8000000 else 0

/-- The Action constructor: ORs all field encodings into one 32-bit word. -/
def mkAction (piece : Piece) (color : Color) (pieceBefore pieceAfter : Nat)
    (doublePawnForward queenSideCastling kingSideCastling enemyInCheck
     wasCapture wasEnPassantCapture : Bool) (pieceCaptured : Piece)
    (wasPromotion : Bool) (promotedTo : Piece) : Nat :=
  colorToBits color |||
  pieceBeforeToBits pieceBefore |||
  pieceAfterToBits pieceAfter |||
  pieceMovedToBits piece |||
  (if doublePawnForward then 0x80000 else 0) |||
  (if queenSideCastling then 0x100000 else 0) |||
  (if kingSideCastling then 0x200000 else 0) |||
  (if enemyInCheck then 0x400000 else 0) |||
  pieceCapturedToBits wasCapture pieceCaptured |||
  (if wasEnPassantCapture then 0x4000000 else 0) |||
  equalCaptureBits wasCapture piece pieceCaptured |||
  promotionToBits wasPromotion promotedTo

/-- Action::ActionToColor. -/
def actionColor (a : Nat) : Color := if a &&& 0x01 = 0 then .white else .black

/-- Action::ActionToPieceBefore: decode bits 1-6 back to a single-bit board. -/
def actionPieceBefore (a : Nat) : Nat := 1 <<< ((a &&& 0x7e) / 2)

/-- Action::ActionToPieceAfter: decode bits 7-12 back to a single-bit board. -/
def actionPieceAfter (a : Nat) : Nat := 1 <<< ((a &&& 0x1f80) >>> 7)

/-- Action::ActionToPieceMoved; a missing key default-inserts kKing. -/
def actionPieceMoved (a : Nat) : Piece :=
  match (a &&& 0x70000) >>> 16 with
  | 1 => .king
  | 2 => .pawn
  | 3 => .bishop
  | 4 => .knight
  | 5 => .rook
  | 6 => .queen
  | _ => .king

/-- Action::ActionToDoublePawnForward. -/
def actionDoublePawnForward (a : Nat) : Bool := a &&& 0x80000 != 0

/-- Action::ActionToQueenSideCastle. -/
def actionQueenSideCastle (a : Nat) : Bool := a &&& 0x100000 != 0

/-- Action::ActionToKingSideCastle. -/
def actionKingSideCastle (a : Nat) : Bool := a &&& 0x200000 != 0

/-- Action::ActionToEnemyInCheck. -/
def actionEnemyInCheck (a : Nat) : Bool := a &&& 0x400000 != 0

/-- Action::ActionToWasCapture. -/
def actionWasCapture (a : Nat) : Bool := a &&& 0x83800000 != 0

/-- Action::ActionToPieceCaptured; a missing key default-inserts kKing. -/
def actionPieceCaptured (a : Nat) : Piece :=
  match a &&& 0x83800000 with
  | 0x800000 => .pawn
  | 0x1000000 => .bishop
  | 0x1800000 => .knight
  | 0x2000000 => .rook
  | 0x2800000 => .queen
  | 0x80000000 => .king
  | _ => .king

/-- Action::ActionToWasEnpassantCapture. -/
def actionWasEnPassantCapture (a : Nat) : Bool := a &&& 0x4000000 != 0

/-- Action::ActionToWasPromotion. -/
def actionWasPromotion (a : Nat) : Bool := a &&& 0x70000000 != 0

/-- Action::ActionToPromotedTo; a missing key default-inserts kKing. -/
def actionPromotedTo (a : Nat) : Piece :=
  match (a &&& 0x70000000) >>> 28 with
  | 1 => .bishop
  | 2 => .knight
  | 3 => .rook
  | 4 => .queen
  | _ => .king

/-- ChessAI::WasCapture. -/
def wasCaptureTest (enemyBitboard move : Nat) : Bool :=
  enemyBitboard &&& move != 0

/-- ChessAI::FindCapturePiece: first kind (in enum order, king first) whose
board intersects the move square; kKing as the no-capture sentinel. -/
def findCapturePiece (enemyBitboards : SideBoards) (enemyBitboard move : Nat) :
    Piece :=
  if !wasCaptureTest enemyBitboard move then .king
  else if move &&& enemyBitboards.king != 0 then .king
  else if move &&& enemyBitboards.queen != 0 then .queen
  else if move &&& enemyBitboards.rook != 0 then .rook
  else if move &&& enemyBitboards.bishop != 0 then .bishop
  else if move &&& enemyBitboards.knight != 0 then .knight
  else if move &&& enemyBitboards.pawn != 0 then .pawn
  else .king

/-- ChessAI::EnpassantMoveGenerator: the declared parameter order is
(en_passant_squares, pawn, colour); the result steps the first parameter one
rank forward. -/
def enpassantMoveGenerator (enPassantSquares pawn : Nat) (friendlyColor : Color) :
    Nat :=
  let validSquares := enpassantMoves enPassantSquares pawn
  if validSquares != 0 then
    if friendlyColor = .white then moving enPassantSquares .north
    else moving enPassantSquares .south
  else 0

/-- ChessAI::KingLocationAfterCastling: maps the rook's post-castle square to
the king's post-castle square. -/
def kingLocationAfterCastling (rookAfter : Nat) : Nat :=
  if rookAfter = 0x08 then 0x04
  else if rookAfter = 0x20 then 0x40
  else if rookAfter = 0x800000000000000 then 0x400000000000000
  else if rookAfter = 0x2000000000000000 then 0x4000000000000000
  else 0

/-- ChessAI::CastlingMoveGenerator: converts the per-side castle availability
into the rook's post-castle square for the given rook. -/
def castlingMoveGenerator (allWhites allBlacks castlingSquares rook : Nat) : Nat :=
  let possibleCastles := castlingMoves castlingSquares allWhites allBlacks
  let r1 : Nat :=
    if 0x01 &&& possibleCastles &&& rook != 0 then 0x08 else 0
  let r2 : Nat :=
    if 0x80 &&& possibleCastles &&& rook != 0 then r1 ||| 0x20 else r1
  let r3 : Nat :=
    if 0x100000000000000 &&& possibleCastles &&& rook != 0 then
      r2 ||| 0x800000000000000 else r2
  if 0x8000000000000000 &&& possibleCastles &&& rook != 0 then
    r3 ||| 0x2000000000000000 else r3

def kFirstEighthRank : Nat := 0xff000000000000ff
def kSecondSeventhRank : Nat := 0xff00000000ff00
def kFourthFifthRank : Nat := 0xffff000000

/-- Insertion of one encoded action into a sorted list (ascending by the
32-bit encoding, the total order `Action::operator<`). -/
def insertAction (a : Nat) : List Nat → List Nat
  | [] => [a]
  | b :: rest => if a ≤ b then a :: b :: rest else b :: insertAction a rest

/-- The `std::sort` by `Action::operator<` at the end of ChessAI::Actions. -/
def sortActions : List Nat → List Nat
  | [] => []
  | a :: rest => insertAction a (sortActions rest)

/-- The per-target body of the ChessAI::Actions loops: hypothetical
occupancies, the enemy-attack legality filter, classification and emission
(four actions on promotion). -/
def emitActionsForTarget (piece : Piece) (isCastling isEnPassant : Bool)
    (friendly enemy : SideBoards) (allFriendly allEnemy : Nat)
    (friendlyColor enemyColor : Color) (currentBoard pieceInsideBoard
     newLocation : Nat) : List Nat :=
  let newAllFriendly := (allFriendly &&& bnot currentBoard) ||| newLocation
  let newAllEnemy := allEnemy &&& bnot newLocation
  let tempAllEnemy := enemy.mapAll (· &&& newAllEnemy)
  let allEnemyMoves :=
    allStandardMovesInOneBitboard tempAllEnemy newAllEnemy newAllFriendly
      enemyColor
  let kingPiece0 := if piece = .king then newLocation else friendly.king
  let kingPiece :=
    if isCastling then kingLocationAfterCastling newLocation else kingPiece0
  if allEnemyMoves &&& kingPiece != 0 then []
  else
    let wasACapture := wasCaptureTest allEnemy newLocation
    let capturedPiece := findCapturePiece enemy allEnemy newLocation
    let before := pieceInsideBoard
    let after := newLocation
    let doublePawnForward :=
      piece == .pawn && before &&& kSecondSeventhRank != 0 &&
        after &&& kFourthFifthRank != 0
    let queenSideCastling :=
      isCastling && before &&& 0x100000000000001 != 0 &&
        after &&& 0x800000000000008 != 0
    let kingSideCastling :=
      isCastling && before &&& 0x8000000000000080 != 0 &&
        after &&& 0x2000000000000020 != 0
    let enemyInCheck := false
    if piece == .pawn && newLocation &&& kFirstEighthRank != 0 then
      [Piece.queen, Piece.rook, Piece.bishop, Piece.knight].map
        (fun promotedPiece =>
          mkAction piece friendlyColor before after doublePawnForward
            queenSideCastling kingSideCastling enemyInCheck wasACapture
            isEnPassant capturedPiece true promotedPiece)
    else
      [mkAction piece friendlyColor before after doublePawnForward
        queenSideCastling kingSideCastling enemyInCheck wasACapture
        isEnPassant capturedPiece false .king]

/-- ChessAI::Actions: legal move enumeration over the eight
(piece, castle-flag, en-passant-flag, generator) tuples, sorted by the
32-bit encoding.  The en-passant tuple passes the pawn board as the first
argument of `enpassantMoveGenerator`, exactly as the call site does. -/
def chessActions (state : State) : List Nat :=
  let friendlyColor := state.colorAtPlay
  let enemyColor := oppositeColor state.colorAtPlay
  let friendly := if friendlyColor = .white then state.whites else state.blacks
  let enemy := if enemyColor = .white then state.whites else state.blacks
  let allFriendly :=
    if friendlyColor = .white then state.allWhites else state.allBlacks
  let allEnemy :=
    if enemyColor = .white then state.allWhites else state.allBlacks
  let enPassantSquares := state.enPassantSquares
  let castlingSquares := state.castlingSquares
  let moveGenerators : List (Piece × Bool × Bool × (Nat → Nat)) :=
    [ (.king, false, false, fun kingBoard => kingMoves kingBoard allFriendly),
      (.knight, false, false, fun knightBoard =>
        knightMoves knightBoard allFriendly),
      (.rook, false, false, fun rookBoard =>
        rookMoves rookBoard allFriendly allEnemy),
      (.bishop, false, false, fun bishopBoard =>
        bishopMoves bishopBoard allFriendly allEnemy),
      (.queen, false, false, fun queenBoard =>
        queenMoves queenBoard allFriendly allEnemy),
      (.pawn, false, false, fun pawnBoard =>
        pawnMoves pawnBoard allFriendly allEnemy friendlyColor),
      (.pawn, false, true, fun pawnBoard =>
        enpassantMoveGenerator pawnBoard enPassantSquares friendlyColor),
      (.rook, true, false, fun rookBoard =>
        castlingMoveGenerator allFriendly allEnemy castlingSquares rookBoard) ]
  let actions :=
    moveGenerators.foldl
      (fun acc gen =>
        let piece := gen.1
        let isCastling := gen.2.1
        let isEnPassant := gen.2.2.1
        let moveGenerator := gen.2.2.2
        let currentBoard := friendly.get piece
        (separated currentBoard).foldl
          (fun acc2 pieceInsideBoard =>
            if moveGenerator pieceInsideBoard = 0 then acc2
            else
              (separated (moveGenerator pieceInsideBoard)).foldl
                (fun acc3 newLocation =>
                  acc3 ++ emitActionsForTarget piece isCastling isEnPassant
                    friendly enemy allFriendly allEnemy friendlyColor
                    enemyColor currentBoard pieceInsideBoard newLocation)
                acc2)
          acc)
      []
  sortActions actions

/-- ChessAI::Result: the state transition for a chosen action, including the
promotion, capture, en-passant and castling branches (the castling branch
writes `whites[kKing]` for both colours, as the source does), the
rook-move castling-rights update, and the double-push en-passant target. -/
def chessResult (state : State) (action : Nat) : State :=
  let piece := actionPieceMoved action
  let pieceBefore := actionPieceBefore action
  let pieceAfter := actionPieceAfter action
  let wasCapture := actionWasCapture action
  let capturedPiece := actionPieceCaptured action
  let wasPromotion := actionWasPromotion action
  let promotedTo := actionPromotedTo action
  let oldColorAtPlay := state.colorAtPlay
  let newColorAtPlay := oppositeColor state.colorAtPlay
  let whites0 := state.whites
  let blacks0 := state.blacks
  let wasEnPassant := actionWasEnPassantCapture action
  let wasCastling := actionQueenSideCastle action || actionKingSideCastle action
  let boards :=
    if wasPromotion then
      if oldColorAtPlay = .white then
        let w1 := whites0.set .pawn (whites0.pawn &&& bnot pieceBefore)
        let w2 := w1.set promotedTo (w1.get promotedTo ||| pieceAfter)
        let b1 :=
          if wasCapture then
            blacks0.set capturedPiece
              (blacks0.get capturedPiece &&& bnot pieceAfter)
          else blacks0
        (w2, b1)
      else
        let b1 := blacks0.set .pawn (blacks0.pawn &&& bnot pieceBefore)
        let b2 := b1.set promotedTo (b1.get promotedTo ||| pieceAfter)
        let w1 :=
          if wasCapture then
            whites0.set capturedPiece
              (whites0.get capturedPiece &&& bnot pieceAfter)
          else whites0
        (w1, b2)
    else if oldColorAtPlay = .white then
      let w1 := whites0.set piece (whites0.get piece &&& bnot pieceBefore)
      let w2 := w1.set piece (w1.get piece ||| pieceAfter)
      let b1 :=
        if wasCapture then
          blacks0.set capturedPiece
            (blacks0.get capturedPiece &&& bnot pieceAfter)
        else blacks0
      let b2 :=
        if wasEnPassant then
          b1.set .pawn (b1.pawn &&& bnot state.enPassantSquares)
        else b1
      let w3 :=
        if wasCastling then
          w2.set .king (kingLocationAfterCastling pieceAfter)
        else w2
      (w3, b2)
    else
      let b1 := blacks0.set piece (blacks0.get piece &&& bnot pieceBefore)
      let b2 := b1.set piece (b1.get piece ||| pieceAfter)
      let w1 :=
        if wasCapture then
          whites0.set capturedPiece
            (whites0.get capturedPiece &&& bnot pieceAfter)
        else whites0
      let w2 :=
        if wasEnPassant then
          w1.set .pawn (w1.pawn &&& bnot state.enPassantSquares)
        else w1
      let w3 :=
        if wasCastling then
          w2.set .king (kingLocationAfterCastling pieceAfter)
        else w2
      (w3, b2)
  let whites := boards.1
  let blacks := boards.2
  let enPassantSquares :=
    if piece = .rook then 0
    else if piece = .pawn then
      if pieceBefore &&& kSecondSeventhRank != 0 &&
         pieceAfter &&& kFourthFifthRank != 0 then pieceAfter
      else 0
    else 0
  let castlingSquares :=
    if piece = .rook then state.castlingSquares &&& bnot pieceBefore
    else state.castlingSquares
  { colorAtPlay := newColorAtPlay
    allWhites := allBitboardsInOneBoard whites
    allBlacks := allBitboardsInOneBoard blacks
    whites := whites
    blacks := blacks
    enPassantSquares := enPassantSquares
    castlingSquares := castlingSquares }

/-- constants.h: kMaxHistory. -/
def kMaxHistory : Nat := 8

/-- The percept sequence (chess-history.h): deque of recent states plus the
two half-move counters. -/
structure PerceptSequence where
  stateHistory : List State
  movesSinceCapture : Nat
  movesSincePawnMovement : Nat
deriving DecidableEq, Repr

/-- PerceptSequence::Add(State): pop the front if the size exceeds
kMaxHistory, then push the state at the back. -/
def PerceptSequence.addState (ps : PerceptSequence) (s : State) :
    PerceptSequence :=
  { ps with
    stateHistory :=
      (if ps.stateHistory.length > kMaxHistory then ps.stateHistory.drop 1
       else ps.stateHistory) ++ [s] }

/-- PerceptSequence::Add(Action): the counter updates exactly as written in
move-time-calculator.cpp lines 50-54. -/
def PerceptSequence.addAction (ps : PerceptSequence) (a : Nat) :
    PerceptSequence :=
  { ps with
    movesSinceCapture :=
      if actionWasCapture a then ps.movesSinceCapture + 1 else 0
    movesSincePawnMovement :=
      if actionPieceMoved a = .pawn then ps.movesSincePawnMovement + 1 else 0 }

/-- PerceptSequence::Size. -/
def PerceptSequence.size (ps : PerceptSequence) : Nat := ps.stateHistory.length

/-- The empty percept sequence (a default-constructed PerceptSequence). -/
def emptyPercept : PerceptSequence := ⟨[], 0, 0⟩

inductive ChessOutcome where
  | draw
  | win
  | loss
  | nonterminal
deriving DecidableEq, Repr

/-- A machine float restricted to the values the engine produces: the two
infinities and exact (integer-valued) finite numbers. -/
inductive EngineFloat where
  | negInf
  | num (q : Int)
  | posInf
deriving DecidableEq, Repr

/-- The fallback state used for out-of-range deque indexing (never reached
under the guards of the repetition rule). -/
def defaultState : State := ⟨.white, 0, 0, ⟨0, 0, 0, 0, 0, 0⟩, ⟨0, 0, 0, 0, 0, 0⟩, 0, 0⟩

/-- ChessAI::IsEightfoldRepetitionRule. -/
def isEightfoldRepetitionRule (fromHistory : PerceptSequence) : Bool :=
  if fromHistory.size < 8 then false
  else
    let hist := fromHistory.stateHistory
    (List.range 4).all (fun i => hist.getD i defaultState == hist.getD (i + 4) defaultState) &&
    fromHistory.movesSincePawnMovement ≥ 8 &&
    fromHistory.movesSinceCapture ≥ 8

/-- ChessAI::InsufficientMaterial: king vs king, optionally plus one knight
or one bishop on either side. -/
def insufficientMaterial (currentState : State) : Bool :=
  let w := currentState.whites
  let b := currentState.blacks
  let onlyKings :=
    w.rook == 0 && w.bishop == 0 && w.queen == 0 && w.knight == 0 &&
    w.pawn == 0 && b.rook == 0 && b.bishop == 0 && b.queen == 0 &&
    b.knight == 0 && b.pawn == 0
  let kingVsKingKnightBlack :=
    w.rook == 0 && w.bishop == 0 && w.queen == 0 && w.knight == 0 &&
    w.pawn == 0 && b.rook == 0 && b.bishop == 0 && b.queen == 0 &&
    numberOfBits b.knight == 1 && b.pawn == 0
  let kingVsKingBishopBlack :=
    w.rook == 0 && w.bishop == 0 && w.queen == 0 && w.knight == 0 &&
    w.pawn == 0 && b.rook == 0 && numberOfBits b.bishop == 1 &&
    b.queen == 0 && b.knight == 0 && b.pawn == 0
  let kingVsKingKnightWhite :=
    w.rook == 0 && w.bishop == 0 && w.queen == 0 &&
    numberOfBits w.knight == 1 && w.pawn == 0 && b.rook == 0 &&
    b.bishop == 0 && b.queen == 0 && b.knight == 0 && b.pawn == 0
  let kingVsKingBishopWhite :=
    w.rook == 0 && numberOfBits w.bishop == 1 && w.queen == 0 &&
    w.knight == 0 && w.pawn == 0 && b.rook == 0 && b.bishop == 0 &&
    b.queen == 0 && b.knight == 0 && b.pawn == 0
  onlyKings || kingVsKingKnightBlack || kingVsKingBishopBlack ||
    kingVsKingKnightWhite || kingVsKingBishopWhite

/-- ChessAI::FiftyMoveRule (`>= 50` on captures, `> 50` on pawn moves). -/
def fiftyMoveRule (history : PerceptSequence) : Bool :=
  history.movesSinceCapture ≥ 50 && history.movesSincePawnMovement > 50

/-- ChessAI::TerminalTest. -/
def terminalTest (state : State) (history : PerceptSequence) : ChessOutcome :=
  let friendlyColor := state.colorAtPlay
  let enemyColor := oppositeColor friendlyColor
  let friendly := if friendlyColor = .white then state.whites else state.blacks
  let enemy := if enemyColor = .white then state.whites else state.blacks
  let allFriendly :=
    if friendlyColor = .white then state.allWhites else state.allBlacks
  let allEnemy :=
    if enemyColor = .white then state.allWhites else state.allBlacks
  let allEnemyMoves :=
    allStandardMovesInOneBitboard enemy allEnemy allFriendly enemyColor
  if (chessActions state).isEmpty then
    if friendly.king &&& allEnemyMoves = 0 then .draw else .loss
  else if isEightfoldRepetitionRule history then .draw
  else if insufficientMaterial state then .draw
  else if fiftyMoveRule history then .draw
  else .nonterminal

/-- ChessAI::UtilityFunction: maps the terminal outcome to a float through
the side-to-move relabelling written in chess-ai.cpp lines 720-744. -/
def utilityFunction (state : State) (friendlyColor : Color)
    (history : PerceptSequence) : EngineFloat :=
  let terminalResult := terminalTest state history
  let outcome :=
    if state.colorAtPlay = friendlyColor then terminalResult
    else if terminalResult = .nonterminal then terminalResult
    else if terminalResult = .win then ChessOutcome.loss
    else ChessOutcome.win
  if outcome = .win then .posInf
  else if outcome = .loss then .negInf
  else .num 0

/-- ChessAIHeuristic::MaterialAdvantage: the piece-weight map iterated in key
order (queen, rook, bishop, knight, pawn), summing
weight * (friendly count - enemy count).  The C++ float arithmetic is exact
on these integer values. -/
def materialAdvantage (state : State) (playerColor : Color) : Int :=
  [(Piece.queen, (9 : Int)), (Piece.rook, 5), (Piece.bishop, 3),
   (Piece.knight, 3), (Piece.pawn, 1)].foldl
    (fun value pw =>
      let numFriendly : Int :=
        if playerColor = .white then (numberOfBits (state.whites.get pw.1) : Int)
        else (numberOfBits (state.blacks.get pw.1) : Int)
      let numEnemy : Int :=
        if playerColor = .white then (numberOfBits (state.blacks.get pw.1) : Int)
        else (numberOfBits (state.whites.get pw.1) : Int)
      value + pw.2 * (numFriendly - numEnemy)) 0

/-- ChessAI::UtilityHeuristic. -/
def utilityHeuristic (state : State) (playerColor : Color) : Int :=
  materialAdvantage state playerColor

/-- ChessAI::InitialState with MoveEngine::GenerateInitialState. -/
def chessInitialState : State :=
  { colorAtPlay := .white
    allWhites := 0xffff
    allBlacks := 0xffff000000000000
    whites :=
      { king := fromIndex 4
        queen := fromIndex 3
        rook := fromIndex 0 ||| fromIndex 7
        bishop := fromIndex 2 ||| fromIndex 5
        knight := fromIndex 1 ||| fromIndex 6
        pawn := 0xff00 }
    blacks :=
      { king := fromIndex 60
        queen := fromIndex 59
        rook := fromIndex 56 ||| fromIndex 63
        bishop := fromIndex 58 ||| fromIndex 61
        knight := fromIndex 57 ||| fromIndex 62
        pawn := 0xff000000000000 }
    enPassantSquares := 0
    castlingSquares := 0x81 ||| 0x8100000000000000 }

/-- The engine's own attack test, as used by TerminalTest and the legality
filter: the union of one side's standard pseudo-legal moves intersected with
the opposing king. -/
def kingAttacked (state : State) (side : Color) : Bool :=
  let enemyColor := oppositeColor side
  let friendly := if side = .white then state.whites else state.blacks
  let enemy := if enemyColor = .white then state.whites else state.blacks
  let allFriendly :=
    if side = .white then state.allWhites else state.allBlacks
  let allEnemy :=
    if enemyColor = .white then state.allWhites else state.allBlacks
  allStandardMovesInOneBitboard enemy allEnemy allFriendly enemyColor &&&
    friendly.king != 0

/-- Modelled from the source (ChessAI::DepthLimitedMinimax, loop of lines
209-222): the running maximum lives in a `std::shared_ptr<float>` and the
update condition is `value > current_max_value`, which compares the
shared_ptr handles (the heap addresses of the two allocations), not the
pointed-to floats.  The address order is therefore an explicit parameter
`addrGt` on allocation indices: allocation i is the shared_ptr returned by
the i-th MinValue call of the function. -/
def depthLimitedMinimaxLoop (addrGt : Nat → Nat → Bool) :
    List Nat → Nat → Nat → Nat → Nat
  | [], bestAction, _, _ => bestAction
  | action :: rest, bestAction, bestAlloc, nextAlloc =>
    if addrGt nextAlloc bestAlloc then
      depthLimitedMinimaxLoop addrGt rest action nextAlloc (nextAlloc + 1)
    else
      depthLimitedMinimaxLoop addrGt rest bestAction bestAlloc (nextAlloc + 1)

/-- Modelled from the source (ChessAI::DepthLimitedMinimax): the initial best
action is `possible_actions.back()` whose MinValue result is allocation 0;
the loop then runs over the remaining actions in codec order with
allocations 1, 2, ....  The MinValue scores do not appear: the source
selection never dereferences them. -/
def depthLimitedMinimax (possibleActions : List Nat)
    (addrGt : Nat → Nat → Bool) : Option Nat :=
  match possibleActions.getLast? with
  | none => none
  | some bestAction =>
      some (depthLimitedMinimaxLoop addrGt possibleActions.dropLast
        bestAction 0 1)

/-- The selection the specification describes, written from the claim for
comparison with `depthLimitedMinimax`: the action attaining the maximal
MinValue score. -/
def specMaximisingAction (possibleActions : List Nat) (score : Nat → Int) :
    Option Nat :=
  possibleActions.foldl
    (fun best action =>
      match best with
      | none => some action
      | some b => if score action > score b then some action else some b)
    none

/-- A concrete MinValue score assignment for the root-selection scenario. -/
def exampleMinValueScore (action : Nat) : Int := if action = 10 then 100 else 0

/-- Mathematical popcount by halving, used to relate the fuel-indexed source
loops to each other. -/
def bitcount (n : Nat) : Nat :=
  if h : n = 0 then 0 else n % 2 + bitcount (n / 2)
  decreasing_by exact Nat.div_lt_self (Nat.pos_of_ne_zero h) one_lt_two

def kThirdRank : Nat := 0xff0000
def kSixthRank : Nat := 0xff0000000000

/-- The double pawn push E2-E4, encoded through the Action constructor. -/
def e2e4 : Nat :=
  mkAction .pawn .white (1 <<< 12) (1 <<< 28) true false false false false
    false .king false .king

/-- The pawn move A7-A6, encoded through the Action constructor. -/
def a7a6 : Nat :=
  mkAction .pawn .black (1 <<< 48) (1 <<< 40) false false false false false
    false .king false .king

/-- The pawn move E4-E5, encoded through the Action constructor. -/
def e4e5 : Nat :=
  mkAction .pawn .white (1 <<< 28) (1 <<< 36) false false false false false
    false .king false .king

/-- The double pawn push D7-D5, encoded through the Action constructor. -/
def d7d5 : Nat :=
  mkAction .pawn .black (1 <<< 51) (1 <<< 35) true false false false false
    false .king false .king

/-- The position after e2e4 from the standard start. -/
def openingState1 : State := chessResult chessInitialState e2e4

/-- The position after e2e4 a7a6. -/
def openingState2 : State := chessResult openingState1 a7a6

/-- The position after e2e4 a7a6 e4e5. -/
def openingState3 : State := chessResult openingState2 e4e5

/-- The position after e2e4 a7a6 e4e5 d7d5: White pawn on E5, Black pawn on
D5, en-passant target D5. -/
def openingState4 : State := chessResult openingState3 d7d5

/-- The en-passant-flagged pawn action E5-E6 as the generator emits it in
`openingState4` (to-square E6 = 44, not the capture square D6 = 43). -/
def epE5E6Act : Nat :=
  mkAction .pawn .white (1 <<< 36) (1 <<< 44) false false false false false
    true .king false .king

/-- An en-passant pin position: White king H5 (39) and pawn E5 (36); Black
king A8 (56), rook A5 (32) and pawn D5 (35) which has just double-pushed, so
the en-passant target is D5.  White to move. -/
def pinState : State :=
  { colorAtPlay := .white
    allWhites := (1 <<< 39) ||| (1 <<< 36)
    allBlacks := (1 <<< 56) ||| (1 <<< 32) ||| (1 <<< 35)
    whites :=
      { king := 1 <<< 39, queen := 0, rook := 0, bishop := 0, knight := 0
        pawn := 1 <<< 36 }
    blacks :=
      { king := 1 <<< 56, queen := 0, rook := 1 <<< 32, bishop := 0
        knight := 0, pawn := 1 <<< 35 }
    enPassantSquares := 1 <<< 35
    castlingSquares := 0 }

/-- The en-passant-flagged action the generator emits for the E5 pawn in
`pinState` (pawn one step north, E5-E6). -/
def epPinAct : Nat :=
  mkAction .pawn .white (1 <<< 36) (1 <<< 44) false false false false false
    true .king false .king

/-- King versus king with Black to move: White king A1 (0), Black king
H8 (63).  Terminal by insufficient material. -/
def kvkState : State :=
  { colorAtPlay := .black
    allWhites := 1 <<< 0
    allBlacks := 1 <<< 63
    whites :=
      { king := 1 <<< 0, queen := 0, rook := 0, bishop := 0, knight := 0
        pawn := 0 }
    blacks :=
      { king := 1 <<< 63, queen := 0, rook := 0, bishop := 0, knight := 0
        pawn := 0 }
    enPassantSquares := 0
    castlingSquares := 0 }

/-- A castling-ready position with Black to move: Black king E8 (60) and
rook H8 (63), White king E1 (4). -/
def castleState : State :=
  { colorAtPlay := .black
    allWhites := 1 <<< 4
    allBlacks := (1 <<< 60) ||| (1 <<< 63)
    whites :=
      { king := 1 <<< 4, queen := 0, rook := 0, bishop := 0, knight := 0
        pawn := 0 }
    blacks :=
      { king := 1 <<< 60, queen := 0, rook := 1 <<< 63, bishop := 0
        knight := 0, pawn := 0 }
    enPassantSquares := 0
    castlingSquares := (1 <<< 56) ||| (1 <<< 63) }

/-- The black king-side castle action: the engine stores castles as
rook-moves, here H8 (63) to F8 (61) with the king-side castle flag. -/
def blackKingSideCastleAct : Nat :=
  mkAction .rook .black (1 <<< 63) (1 <<< 61) false false true false false
    false .king false .king

/-- A rook-takes-pawn capture action (A1 to A2, capturing a pawn), used to
exercise the percept-sequence counter update. -/
def rookTakesPawnAct : Nat :=
  mkAction .rook .white (1 <<< 0) (1 <<< 8) false false false false true
    false .pawn false .king

theorem bitcount_zero : bitcount 0 = 0 := by
  rw [bitcount]
  simp

theorem bitcount_even (n : Nat) (h : n % 2 = 0) : bitcount n = bitcount (n / 2) := by
  by_cases h0 : n = 0
  · subst h0
    simp [bitcount_zero]
  · rw [bitcount]
    simp [h0, h]

theorem bitcount_odd (n : Nat) (h : n % 2 = 1) : bitcount n = bitcount (n / 2) + 1 := by
  have h0 : n ≠ 0 := by omega
  rw [bitcount]
  simp [h0, h]
  omega

theorem land_pred_mod_two (n : Nat) (h : n ≠ 0) : (n &&& (n - 1)) % 2 = 0 := by
  rcases Nat.mod_two_eq_zero_or_one (n &&& (n - 1)) with hm | hm
  · exact hm
  · rcases Nat.and_mod_two_eq_one.mp hm with ⟨h1, h2⟩
    omega

theorem bitcount_land_pred : ∀ n : Nat, n ≠ 0 →
    bitcount (n &&& (n - 1)) + 1 = bitcount n := by
  intro n
  induction n using Nat.strong_induction_on with
  | _ n ih =>
    intro h
    have hd : (n &&& (n - 1)) / 2 = (n / 2) &&& ((n - 1) / 2) := Nat.and_div_two
    have hm := land_pred_mod_two n h
    rcases Nat.mod_two_eq_zero_or_one n with hpar | hpar
    · have hn2 : n / 2 ≠ 0 := by omega
      have hlt : n / 2 < n := by omega
      have hsub : (n - 1) / 2 = n / 2 - 1 := by omega
      calc bitcount (n &&& (n - 1)) + 1
          = bitcount ((n &&& (n - 1)) / 2) + 1 := by rw [bitcount_even _ hm]
        _ = bitcount ((n / 2) &&& (n / 2 - 1)) + 1 := by rw [hd, hsub]
        _ = bitcount (n / 2) := ih (n / 2) hlt hn2
        _ = bitcount n := (bitcount_even n hpar).symm
    · have hsub : (n - 1) / 2 = n / 2 := by omega
      calc bitcount (n &&& (n - 1)) + 1
          = bitcount ((n &&& (n - 1)) / 2) + 1 := by rw [bitcount_even _ hm]
        _ = bitcount ((n / 2) &&& (n / 2)) + 1 := by rw [hd, hsub]
        _ = bitcount (n / 2) + 1 := by rw [Nat.and_self]
        _ = bitcount n := (bitcount_odd n hpar).symm

theorem numberOfBitsGo_eq : ∀ fuel board : Nat, board ≤ fuel →
    numberOfBitsGo fuel board = bitcount board := by
  intro fuel
  induction fuel with
  | zero =>
    intro board hb
    have : board = 0 := by omega
    subst this
    simp [numberOfBitsGo, bitcount_zero]
  | succ f ih =>
    intro board hb
    by_cases h0 : board = 0
    · subst h0
      simp [numberOfBitsGo, bitcount_zero]
    · have hb2 : board &&& (board - 1) ≤ f :=
        le_trans Nat.and_le_right (by omega)
      simp only [numberOfBitsGo, if_neg h0]
      rw [ih _ hb2, bitcount_land_pred board h0]

theorem numberOfBits_eq_bitcount (board : Nat) :
    numberOfBits board = bitcount board :=
  numberOfBitsGo_eq board board le_rfl

theorem toIndicesGo_length : ∀ fuel board index : Nat, board ≤ fuel →
    (toIndicesGo fuel board index).length = bitcount board := by
  intro fuel
  induction fuel with
  | zero =>
    intro board index hb
    have : board = 0 := by omega
    subst this
    simp [toIndicesGo, bitcount_zero]
  | succ f ih =>
    intro board index hb
    by_cases h0 : board = 0
    · subst h0
      simp [toIndicesGo, bitcount_zero]
    · have hb2 : board / 2 ≤ f := by omega
      simp only [toIndicesGo, if_neg h0, List.length_append]
      rw [ih _ (index + 1) hb2]
      rcases Nat.mod_two_eq_zero_or_one board with hpar | hpar
      · rw [bitcount_even board hpar]
        simp [hpar]
      · rw [bitcount_odd board hpar]
        simp [hpar]
        omega

theorem separatedGo_length : ∀ fuel tempBoard board : Nat, tempBoard ≤ fuel →
    (separatedGo fuel tempBoard board).length = bitcount tempBoard := by
  intro fuel
  induction fuel with
  | zero =>
    intro tempBoard board hb
    have : tempBoard = 0 := by omega
    subst this
    simp [separatedGo, bitcount_zero]
  | succ f ih =>
    intro tempBoard board hb
    by_cases h0 : tempBoard = 0
    · subst h0
      simp [separatedGo, bitcount_zero]
    · have hb2 : tempBoard / 2 ≤ f := by omega
      simp only [separatedGo, if_neg h0, List.length_append]
      rw [ih _ (board * 2) hb2]
      rcases Nat.mod_two_eq_zero_or_one tempBoard with hpar | hpar
      · rw [bitcount_even tempBoard hpar]
        simp [hpar]
      · rw [bitcount_odd tempBoard hpar]
        simp [hpar]
        omega

theorem separatedGo_mem : ∀ fuel tempBoard cur x : Nat,
    x ∈ separatedGo fuel tempBoard cur → ∃ i, x = cur * 2 ^ i := by
  intro fuel
  induction fuel with
  | zero =>
    intro tempBoard cur x hx
    simp [separatedGo] at hx
  | succ f ih =>
    intro tempBoard cur x hx
    by_cases h0 : tempBoard = 0
    · subst h0
      simp [separatedGo] at hx
    · simp only [separatedGo, if_neg h0, List.mem_append] at hx
      rcases hx with hx | hx
      · rcases Nat.mod_two_eq_zero_or_one tempBoard with hpar | hpar
        · simp [hpar] at hx
        · simp [hpar] at hx
          exact ⟨0, by simpa using hx⟩
      · rcases ih (tempBoard / 2) (cur * 2) x hx with ⟨i, rfl⟩
        exact ⟨i + 1, by ring⟩

theorem bitcount_two_pow (k : Nat) : bitcount (2 ^ k) = 1 := by
  induction k with
  | zero =>
    rw [bitcount]
    simp [bitcount_zero]
  | succ j ih =>
    have hpow : 2 ^ (j + 1) = 2 * 2 ^ j := by ring
    have hpar : 2 ^ (j + 1) % 2 = 0 := by omega
    rw [bitcount_even _ hpar]
    have : 2 ^ (j + 1) / 2 = 2 ^ j := by omega
    rw [this, ih]

theorem numberOfBits_two_pow (k : Nat) : numberOfBits (2 ^ k) = 1 := by
  rw [numberOfBits_eq_bitcount, bitcount_two_pow]

theorem two_pow_and_of_ne_zero {k m : Nat} (h : 2 ^ k &&& m ≠ 0) :
    2 ^ k &&& m = 2 ^ k := by
  rw [Nat.and_comm] at h ⊢
  rw [Nat.and_two_pow] at h ⊢
  rcases hb : m.testBit k with _ | _ <;> rw [hb] at h <;> simp_all

theorem chessResult_ep_cases (s : State) (a : Nat) :
    (chessResult s a).enPassantSquares = 0 ∨
    ((chessResult s a).enPassantSquares = actionPieceAfter a ∧
      actionPieceAfter a &&& kFourthFifthRank ≠ 0) := by
  simp only [chessResult]
  split_ifs with h1 h2 h3
  · left
    rfl
  · right
    refine ⟨rfl, ?_⟩
    simp only [Bool.and_eq_true, bne_iff_ne, ne_eq] at h3
    exact h3.2
  · left
    rfl
  · left
    rfl

theorem actionPieceAfter_two_pow (a : Nat) :
    actionPieceAfter a = 2 ^ ((a &&& 0x1f80) >>> 7) := by
  rw [actionPieceAfter, Nat.shiftLeft_eq, one_mul]

theorem addState_size (ps : PerceptSequence) (s : State) :
    (ps.addState s).size =
      if ps.size > 8 then ps.size else ps.size + 1 := by
  simp only [PerceptSequence.addState, PerceptSequence.size, kMaxHistory,
    List.length_append, List.length_cons, List.length_nil]
  split_ifs with h
  · simp only [List.length_drop]
    omega
  · rfl

theorem foldl_addState_size_le : ∀ (l : List State) (ps : PerceptSequence),
    ps.size ≤ 9 → (l.foldl PerceptSequence.addState ps).size ≤ 9 := by
  intro l
  induction l with
  | nil =>
    intro ps h
    simpa using h
  | cons s rest ih =>
    intro ps h
    simp only [List.foldl_cons]
    apply ih
    rw [addState_size]
    split_ifs with h1 <;> omega

/-- C1: the claim that every action returned by Actions leads to a state
with the friendly king unattacked fails on the code: in the en-passant pin
position `pinState` the legality filter accepts the en-passant-flagged pawn
move (its hypothetical position never removes the en-passant-captured pawn),
yet after `chessResult` the rook on A5 attacks the white king on H5 along
the now-open fifth rank. -/
theorem actions_can_leave_king_attacked :
    epPinAct ∈ chessActions pinState ∧
    kingAttacked (chessResult pinState epPinAct) .white = true :=
  ⟨by decide, by decide⟩

/-- C2: when TerminalTest reports a Draw and the side to move differs from
the friendly colour, UtilityFunction returns positive infinity instead of
the 0 the specification requires: the king-versus-king position with Black
to move is a Draw, yet its utility for White is +inf. -/
theorem draw_scored_as_win_for_opponent_side :
    terminalTest kvkState emptyPercept = .draw ∧
    kvkState.colorAtPlay ≠ .white ∧
    utilityFunction kvkState .white emptyPercept = .posInf :=
  ⟨by decide, by decide, by decide⟩

/-- C3: the percept-sequence counter update is inverted relative to the
claim: appending a rook-takes-pawn capture action to counters (5, 7) yields
moves_since_capture = 6 (the claim requires 0) and
moves_since_pawn_move = 0 (the claim requires 8, since the mover is not a
pawn). -/
theorem percept_counters_update_inverted :
    ((⟨[], 5, 7⟩ : PerceptSequence).addAction rookTakesPawnAct).movesSinceCapture = 6 ∧
    ((⟨[], 5, 7⟩ : PerceptSequence).addAction rookTakesPawnAct).movesSincePawnMovement = 0 ∧
    actionWasCapture rookTakesPawnAct = true ∧
    actionPieceMoved rookTakesPawnAct ≠ .pawn :=
  ⟨by decide, by decide, by decide, by decide⟩

/-- C4: from the start position after e2e4 a7a6 e4e5 d7d5 (each move legal
at its turn), White's Actions contains no action at all whose destination is
D6 (square 43) — the en-passant capture E5xD6 is absent — while the
en-passant-flagged action emitted instead moves the pawn E5-E6 (square 44):
the call site passes the pawn board where the generator expects the
en-passant square. -/
theorem enpassant_capture_not_generated :
    e2e4 ∈ chessActions chessInitialState ∧
    a7a6 ∈ chessActions openingState1 ∧
    e4e5 ∈ chessActions openingState2 ∧
    d7d5 ∈ chessActions openingState3 ∧
    ((chessActions openingState4).all fun a =>
      actionPieceAfter a != (1 <<< 43)) = true ∧
    epE5E6Act ∈ chessActions openingState4 ∧
    actionWasEnPassantCapture epE5E6Act = true ∧
    actionPieceAfter epE5E6Act = 1 <<< 44 :=
  ⟨by decide, by decide, by decide, by decide, by decide, by decide,
   by decide, by decide⟩

/-- C5: the root selection compares the shared_ptr handles of the MinValue
results, not the scores, so the returned action need not attain the maximal
MinValue score: with legal actions [10, 20], score 100 for action 10 and 0
for action 20, and any address order on which no later allocation compares
greater, the code returns action 20 while the specified selection returns
action 10. -/
theorem root_choice_ignores_minvalue_scores :
    depthLimitedMinimax [10, 20] (fun _ _ => false) = some 20 ∧
    specMaximisingAction [10, 20] exampleMinValueScore = some 10 ∧
    exampleMinValueScore 10 > exampleMinValueScore 20 :=
  ⟨by decide, by decide, by decide⟩

/-- C6: applying Result to the black king-side castle leaves the black king
on E8 (it is never moved to its post-castle square G8) and instead teleports
the white king to G8: the castling branch for Black writes the white king
bitboard. -/
theorem black_castle_relocates_white_king :
    (chessResult castleState blackKingSideCastleAct).blacks.king = 1 <<< 60 ∧
    (chessResult castleState blackKingSideCastleAct).whites.king =
      kingLocationAfterCastling (1 <<< 61) ∧
    kingLocationAfterCastling (1 <<< 61) = 1 <<< 62 ∧
    (chessResult castleState blackKingSideCastleAct).blacks.king ≠
      kingLocationAfterCastling (1 <<< 61) :=
  ⟨by decide, by decide, by decide, by decide⟩

/-- C7 counterexample: the en-passant square produced by Result after the
legal double push e2e4 is E4 (bit 28), which lies on rank 4 — not on rank 3
or rank 6 as the claim states. -/
theorem ep_target_not_on_rank_three_or_six :
    e2e4 ∈ chessActions chessInitialState ∧
    (chessResult chessInitialState e2e4).enPassantSquares = 1 <<< 28 ∧
    (1 <<< 28) &&& (kThirdRank ||| kSixthRank) = 0 ∧
    (1 <<< 28) &&& kFourthFifthRank = 1 <<< 28 :=
  ⟨by decide, by decide, by decide, by decide⟩

/-- C7 amended: in every state produced by Result, en_passant_squares has at
most one bit set, and if set the bit is the double-pushed pawn's destination
square, lying on rank 4 (for black to capture) or rank 5 (for white to
capture). -/
theorem ep_target_single_bit_on_push_rank (s : State) (a : Nat) :
    numberOfBits (chessResult s a).enPassantSquares ≤ 1 ∧
    ((chessResult s a).enPassantSquares = 0 ∨
      (chessResult s a).enPassantSquares &&& kFourthFifthRank =
        (chessResult s a).enPassantSquares) := by
  rcases chessResult_ep_cases s a with h | ⟨h, hne⟩
  · rw [h]
    exact ⟨by decide, Or.inl rfl⟩
  · rw [h]
    rw [actionPieceAfter_two_pow] at hne ⊢
    constructor
    · rw [numberOfBits_two_pow]
    · right
      exact two_pow_and_of_ne_zero hne

/-- Witness for the amended C7 theorem at a concrete state and action: the
position after e2e4 has exactly one en-passant bit, on rank 4. -/
theorem ep_target_single_bit_on_push_rank_witness :
    numberOfBits (chessResult chessInitialState e2e4).enPassantSquares ≤ 1 ∧
    ((chessResult chessInitialState e2e4).enPassantSquares = 0 ∨
      (chessResult chessInitialState e2e4).enPassantSquares &&&
        kFourthFifthRank =
          (chessResult chessInitialState e2e4).enPassantSquares) :=
  ep_target_single_bit_on_push_rank chessInitialState e2e4

/-- C8 counterexample: after nine Add(State) calls starting from an empty
history the deque holds nine states, so the claimed bound of eight fails. -/
theorem history_deque_reaches_nine :
    ((List.replicate 9 defaultState).foldl PerceptSequence.addState
      emptyPercept).size = 9 ∧ ¬ (9 ≤ 8) :=
  ⟨by decide, by decide⟩

/-- C8 amended: the state deque never holds more than 9 states: eviction
(dropping the oldest entry, FIFO) fires only once the size already exceeds
kMaxHistory = 8, so for every sequence of Add(State) calls starting from an
empty history the size stays at most 9. -/
theorem history_deque_size_bound (states : List State) :
    (states.foldl PerceptSequence.addState emptyPercept).size ≤ 9 :=
  foldl_addState_size_le states emptyPercept (by decide)

/-- C9 counterexample: on the empty bitboard, Separated returns the
one-element list [0] through the power-of-two fast path, so its length is 1
while popcount is 0, and its sole element has no bit set. -/
theorem separated_empty_board :
    separated 0 = [0] ∧ numberOfBits 0 = 0 ∧
    (separated 0).length ≠ numberOfBits 0 ∧ numberOfBits 0 ≠ 1 :=
  ⟨by decide, by decide, by decide, by decide⟩

/-- C9 amended: for every bitboard, ToIndices has length popcount; for every
nonzero bitboard, Separated has length popcount and every element has
exactly one bit set (on the empty bitboard Separated instead returns the
singleton [0]). -/
theorem toIndices_separated_lengths (board : Nat) :
    (toIndices board).length = numberOfBits board ∧
    (board = 0 ∨
      ((separated board).length = numberOfBits board ∧
        (separated board).all (fun x => numberOfBits x == 1) = true)) := by
  constructor
  · rw [toIndices, toIndicesGo_length board board 0 le_rfl,
      numberOfBits_eq_bitcount]
  · by_cases h0 : board = 0
    · exact Or.inl h0
    · right
      rw [separated]
      by_cases hp : board &&& (board - 1) = 0
      · rw [if_pos hp]
        have hone : numberOfBits board = 1 := by
          rw [numberOfBits_eq_bitcount, ← bitcount_land_pred board h0, hp,
            bitcount_zero]
        constructor
        · simp [hone]
        · simp [hone]
      · rw [if_neg hp]
        constructor
        · rw [separatedGo_length board board 1 le_rfl,
            numberOfBits_eq_bitcount]
        · rw [List.all_eq_true]
          intro x hx
          rcases separatedGo_mem board board 1 x hx with ⟨i, rfl⟩
          simp [numberOfBits_two_pow]

/-- Witness for the amended C9 theorem at the nonzero board 0x14: both
lengths are 2 and both separated elements are single bits. -/
theorem toIndices_separated_lengths_witness :
    (toIndices 0x14).length = numberOfBits 0x14 ∧
    ((0x14 : Nat) = 0 ∨
      ((separated 0x14).length = numberOfBits 0x14 ∧
        (separated 0x14).all (fun x => numberOfBits x == 1) = true)) :=
  toIndices_separated_lengths 0x14

/-- C10: the material heuristic is antisymmetric in the player colour: for
every state, UtilityHeuristic(s, White) = -UtilityHeuristic(s, Black),
because the friendly and enemy piece counts swap under the shared weights. -/
theorem utilityHeuristic_antisymmetric (s : State) :
    utilityHeuristic s .white = - utilityHeuristic s .black := by
  simp [utilityHeuristic, materialAdvantage, SideBoards.get]
  ring

end ChessSpec
